import Mathlib

/-!
# selfUpdateHttpServer: the secure self-update path of `server.go`

A shallow embedding of `BinLoader.read`, `SecureUpdater.update`, `Context.install` and
`sendJson`, together with the standard-library and `go-update` operations they call.

* Go `string` values are Lean `String`s (valid UTF-8 text); `goBytes` gives the byte
  sequence Go indexes (`len(s)`, `s[i]`).
* Go byte slices are `List Nat`, every element below 256.
* A Go `error` is `Option Error`, `none` being `nil`.
* Effects are explicit: every operation takes the `World` (file system, fault switches of
  the environment, and the log of library calls made so far) and returns the new one.
-/

set_option maxRecDepth 100000

namespace SelfUpdate

/-! ## Strings and bytes -/

/-- UTF-8 encoding of one code point, the bytes a Go string stores for it. -/
def utf8Encode (n : Nat) : List Nat :=
  if n < 0x80 then [n]
  else if n < 0x800 then [0xC0 + n / 64, 0x80 + n % 64]
  else if n < 0x10000 then [0xE0 + n / 4096, 0x80 + n / 64 % 64, 0x80 + n % 64]
  else [0xF0 + n / 262144, 0x80 + n / 4096 % 64, 0x80 + n / 64 % 64, 0x80 + n % 64]

/-- The byte sequence of a Go string: `[]byte(s)`. -/
def goBytes (s : String) : List Nat :=
  s.data.flatMap (fun c => utf8Encode c.toNat)

/-! ## Errors -/

/-- The error values that travel through `update`. Each constructor is one origin:
the loader, `encoding/hex`, `Options.SetPublicKeyPEM`, and the two failure points
of `update.Apply`. -/
inductive Error where
  /-- An `*os.PathError` of `ioutil.ReadFile`: the operation and the path. -/
  | pathError (op : String) (path : String)
  /-- Any other error value, such as one a `Loader` chooses to return or the `MyErr` of
  the tests, with its message. -/
  | other (msg : String)
  /-- The value `hex.ErrLength`: odd length hex string. -/
  | errLength
  /-- The value `hex.InvalidByteError(b)`. -/
  | invalidByte (b : Nat)
  /-- The error of `SetPublicKeyPEM`: the PEM data or the key in it did not parse. -/
  | invalidPublicKey
  /-- The error of `update.Apply` when the signature does not verify. -/
  | signatureVerificationFailed
  /-- The error of `update.Apply` when writing or renaming the new file failed. -/
  | replacementFailed
  deriving DecidableEq

/-- The errors produced by `hex.DecodeString`. -/
def Error.isHexError : Error → Bool
  | .errLength => true
  | .invalidByte _ => true
  | _ => false

/-! ## `encoding/hex` -/

/-- The table `reverseHexTable` of `encoding/hex`, as a partial function: the value of a
hexadecimal digit, `none` for the entries that hold `0xff`. -/
def fromHexChar (b : Nat) : Option Nat :=
  if 48 ≤ b ∧ b ≤ 57 then some (b - 48)
  else if 97 ≤ b ∧ b ≤ 102 then some (b - 97 + 10)
  else if 65 ≤ b ∧ b ≤ 70 then some (b - 65 + 10)
  else none

/-- The function `hex.Decode`, returning the bytes written so far and the error. Pairs are
decoded left to right; a bad digit in a pair stops with `InvalidByteError`; a trailing
single byte is reported as a bad digit if it is one and as `ErrLength` otherwise. -/
def hexDecode : List Nat → List Nat × Option Error
  | [] => ([], none)
  | [p] =>
    match fromHexChar p with
    | none => ([], some (.invalidByte p))
    | some _ => ([], some .errLength)
  | p :: q :: rest =>
    match fromHexChar p with
    | none => ([], some (.invalidByte p))
    | some a =>
      match fromHexChar q with
      | none => ([], some (.invalidByte q))
      | some b =>
        let r := hexDecode rest
        ((a * 16 + b) :: r.1, r.2)

/-- The function `hex.DecodeString`: decode the bytes of the string. -/
def hexDecodeString (s : String) : List Nat × Option Error :=
  hexDecode (goBytes s)

/-- A byte sequence is valid hexadecimal: even length and every byte one of
`0-9`, `a-f`, `A-F`. -/
def validHex (bs : List Nat) : Prop :=
  bs.length % 2 = 0 ∧ ∀ b ∈ bs, (fromHexChar b).isSome = true

instance (bs : List Nat) : Decidable (validHex bs) := by
  unfold validHex
  infer_instance

/-! ## The file system and the world -/

/-- A file: its bytes and its executable permission bit. -/
structure File where
  content : List Nat
  executable : Bool
  deriving DecidableEq

/-- The part of the host the program touches. `files` maps paths to files (first entry
for a path wins); `readFault` makes reading a path fail after that many bytes;
`target` is the path of the running executable, the update target; `writeFault` and
`renameFault` are the environment's choice of whether writing the temporary file or the
final rename fails. -/
structure FileSystem where
  files : List (String × File)
  readFault : List (String × Nat)
  target : String
  writeFault : Bool
  renameFault : Bool
  deriving DecidableEq

/-- The file at a path, if any. -/
def FileSystem.lookup (fs : FileSystem) (path : String) : Option File :=
  fs.files.lookup path

/-- Create or overwrite the file at a path. -/
def FileSystem.write (fs : FileSystem) (path : String) (f : File) : FileSystem :=
  { fs with files := (path, f) :: fs.files.filter (fun e => e.1 != path) }

/-- Remove the file at a path. -/
def FileSystem.remove (fs : FileSystem) (path : String) : FileSystem :=
  { fs with files := fs.files.filter (fun e => e.1 != path) }

/-- Set the executable bit of the file at a path. -/
def FileSystem.chmodExec (fs : FileSystem) (path : String) : FileSystem :=
  match fs.lookup path with
  | none => fs
  | some f => fs.write path { f with executable := true }

/-- Rename a file over another path, replacing what was there. -/
def FileSystem.rename (fs : FileSystem) (src dst : String) : FileSystem :=
  match fs.lookup src with
  | none => fs
  | some f => (fs.remove src).write dst f

/-- The bytes of the update target, if it exists. -/
def FileSystem.targetContent (fs : FileSystem) : Option (List Nat) :=
  (fs.lookup fs.target).map File.content

/-- The function `ioutil.ReadFile`: the bytes read and the error. A missing file gives an
open error; a read fault gives the bytes read before it and a read error; otherwise the
complete content and `nil`. -/
def readFile (fs : FileSystem) (filename : String) : List Nat × Option Error :=
  match fs.lookup filename with
  | none => ([], some (.pathError "open" filename))
  | some f =>
    match fs.readFault.lookup filename with
    | some n => (f.content.take n, some (.pathError "read" filename))
    | none => (f.content, none)

/-- A parsed public key, identified by its encoded form. -/
structure PublicKey where
  der : List Nat
  deriving DecidableEq

/-- The struct `update.Options` as `update` fills it: the signature and the key. -/
structure Options where
  Signature : List Nat
  PublicKey : Option PublicKey
  deriving DecidableEq

/-- A call made by `update` into the loader or a library. -/
inductive Call where
  | read
  | decodeString (s : String)
  | setPublicKeyPEM (pem : List Nat)
  | apply (newFile : List Nat) (opts : Options)
  deriving DecidableEq

/-- Whether a call is a call of `update.Apply`. -/
def Call.isApply : Call → Bool
  | .apply _ _ => true
  | _ => false

/-- Whether a call is a call of `SetPublicKeyPEM`. -/
def Call.isSetPublicKeyPEM : Call → Bool
  | .setPublicKeyPEM _ => true
  | _ => false

/-- The state threaded through the program: the file system and the calls made so far. -/
structure World where
  fs : FileSystem
  calls : List Call
  deriving DecidableEq

/-- Record a call. -/
def World.log (w : World) (c : Call) : World :=
  { w with calls := w.calls ++ [c] }

/-- A world with the given file system and no calls made yet. -/
def World.start (fs : FileSystem) : World :=
  { fs := fs, calls := [] }

/-! ## The loader -/

/-- The interface `Loader`: `read() ([]byte, error)`. A loader observes the file system;
both implementations in the repository (`BinLoader`, and `FakeLoader` of the tests) leave
it as it is. -/
structure Loader where
  read : FileSystem → List Nat × Option Error

/-- The struct `BinLoader`. -/
structure BinLoader where
  filePath : String

/-- The method `BinLoader.read`: on a read error the bytes are dropped and an empty slice
is returned with the error. -/
def BinLoader.read (bl : BinLoader) (fs : FileSystem) : List Nat × Option Error :=
  match readFile fs bl.filePath with
  | (_, some err) => ([], some err)
  | (b, none) => (b, none)

/-- A `BinLoader` used through the `Loader` interface. -/
def BinLoader.toLoader (bl : BinLoader) : Loader :=
  { read := bl.read }

/-- The variable `fileBytes` of the tests. -/
def fileBytes : List Nat := [0x01, 0x02, 0x03]

/-- The type `FakeLoader` of the tests: it returns `fileBytes`. -/
def FakeLoader : Loader :=
  { read := fun _ => (fileBytes, none) }

/-! ## The `go-update` library -/

/-- The cryptographic primitives behind `go-update`, which the program does not define:
`parsePEM` is PEM decoding followed by parsing of the public key in it, `verify key
content signature` is the check of a detached signature over the content. -/
structure Crypto where
  parsePEM : List Nat → Option PublicKey
  verify : PublicKey → List Nat → List Nat → Bool

/-- Modelled from the spec: `Options.SetPublicKeyPEM` of `go-update`, which is not in
the repository. Step 3 of the updater: parse the configured key material into a key
object; an empty or malformed key is a failure (`InvalidPublicKey`), never a key. -/
def Options.SetPublicKeyPEM (C : Crypto) (o : Options) (pem : List Nat) :
    Options × Option Error :=
  if pem = [] then (o, some .invalidPublicKey)
  else
    match C.parsePEM pem with
    | none => (o, some .invalidPublicKey)
    | some key => ({ o with PublicKey := some key }, none)

/-- Modelled from the spec: the signature check inside `update.Apply` of `go-update`,
which is not in the repository. Step 4 of the updater: the signature is verified against
the exact candidate bytes under the parsed key; without a key, or with an empty
signature, verification fails. -/
def verifySignature (C : Crypto) (o : Options) (newBytes : List Nat) : Bool :=
  match o.PublicKey with
  | none => false
  | some key => !o.Signature.isEmpty && C.verify key newBytes o.Signature

/-- The temporary file next to the target. -/
def tempPath (target : String) : String :=
  target ++ ".new"

/-- Modelled from the spec: the replacement inside `update.Apply` of `go-update`, which
is not in the repository. Step 5 of the updater: write the bytes to a temporary file next
to the target, set its executable bit, rename it over the target. A failed write or
rename leaves the prior target in place, removes the temporary file and reports
`ReplacementFailed`. -/
def replaceTarget (newBytes : List Nat) (fs : FileSystem) : Option Error × FileSystem :=
  if fs.writeFault then (some .replacementFailed, fs)
  else
    let tmp := tempPath fs.target
    let staged := (fs.write tmp { content := newBytes, executable := false }).chmodExec tmp
    if fs.renameFault then (some .replacementFailed, staged.remove tmp)
    else (none, staged.rename tmp fs.target)

/-- Modelled from the spec: `update.Apply` of `go-update`, which is not in the
repository. Steps 4 to 6 of the updater: verify first, failing with
`SignatureVerificationFailed` before anything is written; only then replace the target;
success only after the replacement. -/
def Apply (C : Crypto) (newFile : List Nat) (opts : Options) (w : World) :
    Option Error × World :=
  let w := w.log (.apply newFile opts)
  if verifySignature C opts newFile then
    let r := replaceTarget newFile w.fs
    (r.1, { w with fs := r.2 })
  else (some .signatureVerificationFailed, w)

/-! ## `SecureUpdater` -/

/-- The interface `Updater`: `update() error`. -/
structure Updater where
  update : World → Option Error × World

/-- The struct `SecureUpdater`. -/
structure SecureUpdater where
  publicKey : String
  signature : String
  binLoad : Loader

/-- The method `SecureUpdater.update`: load, hex-decode the signature, parse the key,
apply; the first error is returned as it is. -/
def SecureUpdater.update (C : Crypto) (updater : SecureUpdater) (w : World) :
    Option Error × World :=
  let w := w.log .read
  match updater.binLoad.read w.fs with
  | (_, some err) => (some err, w)
  | (newFile, none) =>
    let w := w.log (.decodeString updater.signature)
    match hexDecodeString updater.signature with
    | (_, some err) => (some err, w)
    | (signature, none) =>
      let opts : Options := { Signature := signature, PublicKey := none }
      let w := w.log (.setPublicKeyPEM (goBytes updater.publicKey))
      match opts.SetPublicKeyPEM C (goBytes updater.publicKey) with
      | (_, some err) => (some err, w)
      | (opts, none) => Apply C newFile opts w

/-- A `SecureUpdater` used through the `Updater` interface. -/
def SecureUpdater.toUpdater (C : Crypto) (updater : SecureUpdater) : Updater :=
  { update := updater.update C }

/-- The type `FakeUpdater` of the tests: it returns its `err`. -/
def FakeUpdater (err : Option Error) : Updater :=
  { update := fun w => (err, w) }

/-! ## `encoding/json` and the HTTP handler -/

/-- The table `htmlSafeSet` of `encoding/json`: the ASCII bytes written without
escaping: those from space up, except the double quote, the backslash, and
the three characters less-than, greater-than and ampersand. -/
def htmlSafe (b : Nat) : Bool :=
  decide (0x20 ≤ b) && decide (b < 0x80) && b != 34 && b != 92 && b != 60 && b != 62 && b != 38

/-- A lower-case hexadecimal digit, `hex[n]` of `encoding/json`. -/
def hexDigit (n : Nat) : Char :=
  if n < 10 then Char.ofNat (48 + n) else Char.ofNat (87 + n)

/-- How `encoding/json` writes one character of a string: safe ASCII as it is; the
quote and the backslash behind a backslash; newline, carriage return and tab as
their letter escapes; any other ASCII as a four-digit unicode escape; the line and paragraph
separators U+2028 and U+2029 as unicode escapes; everything else as it is. -/
def jsonEscapeChar (c : Char) : List Char :=
  let n := c.toNat
  if n < 0x80 then
    if htmlSafe n then [c]
    else if n = 92 ∨ n = 34 then [Char.ofNat 92, c]
    else if n = 10 then [Char.ofNat 92, Char.ofNat 110]
    else if n = 13 then [Char.ofNat 92, Char.ofNat 114]
    else if n = 9 then [Char.ofNat 92, Char.ofNat 116]
    else [Char.ofNat 92, Char.ofNat 117, Char.ofNat 48, Char.ofNat 48,
          hexDigit (n / 16), hexDigit (n % 16)]
  else if n = 0x2028 ∨ n = 0x2029 then
    [Char.ofNat 92, Char.ofNat 117, Char.ofNat 50, Char.ofNat 48, Char.ofNat 50,
     hexDigit (n % 16)]
  else [c]

/-- The one-character string holding a double quote. -/
def quote : String :=
  ⟨[Char.ofNat 34]⟩

/-- The JSON encoding of a string: the escaped characters between double quotes. -/
def jsonString (s : String) : String :=
  ⟨Char.ofNat 34 :: (s.data.flatMap jsonEscapeChar ++ [Char.ofNat 34])⟩

/-- The function `json.Marshal` on a string payload: the encoding, and no error. -/
def jsonMarshal (payload : String) : String × Option Error :=
  (jsonString payload, none)

/-- The `http.ResponseWriter`: the headers set and the body written so far. -/
structure ResponseWriter where
  header : List (String × String)
  body : String
  deriving DecidableEq

/-- A response with nothing set and nothing written. -/
def ResponseWriter.empty : ResponseWriter :=
  { header := [], body := "" }

/-- The function `sendJson`: marshal the payload, set the content type, write the bytes.
The result is `none` where the Go code ends the process with `log.Fatal`. -/
def sendJson (payload : String) (w : ResponseWriter) : Option ResponseWriter :=
  match jsonMarshal payload with
  | (_, some _) => none
  | (jData, none) =>
    some { header := ("Content-Type", "application/json") ::
             w.header.filter (fun e => e.1 != "Content-Type")
           body := w.body ++ jData }

/-- The struct `Status`. -/
structure Status where
  Version : String
  NewVersion : String

/-- The struct `Context`, without the page template, which `install` does not use. -/
structure Context where
  status : Status
  binUpdate : Updater

/-- The method `Context.install`: run the update and answer with the failure message or
with the success message naming the new version. -/
def Context.install (ctx : Context) (w : ResponseWriter) (world : World) :
    Option ResponseWriter × World :=
  match ctx.binUpdate.update world with
  | (some _, world) => (sendJson "update failed!" w, world)
  | (none, world) =>
    let latest : String := "Updated SUCCESS to version: " ++ ctx.status.NewVersion
    (sendJson latest w, world)

/-! ## The fixture of the tests -/

/-- The variable `ecdsaPublicKey` of `server.go`. -/
def ecdsaPublicKey : String :=
  "\n-----BEGIN PUBLIC KEY-----\nMHYwEAYHKoZIzj0CAQYFK4EEACIDYgAEL8ThbSyEucsCxnd4dCZR2hIy5nea54ko\nO+jUUfIjkvwhCWzASm0lpCVdVpXKZXIe+NZ+44RQRv3+OqJkCCGzUgJkPNI3lxdG\n9zu8rbrnxISV06VQ8No7Ei9wiTpqmTBB\n-----END PUBLIC KEY-----\n"

/-- The variable `strSig` of `server.go`. -/
def strSig : String :=
  "3066023100c3c7b5c39fcf8d6a7b56ed915c8b0bef10b7b4f420c728fcdc2f69558d88a518778c1fe7447ff9d8b15d3aefe3ee5307023100818f717ed9bdc1383edbb2c6c9c352ff713a8bea41f98e562db647f6b77118b992a1fdd2c154c7a86d7afd747c6fbc2a"

/-- The variable `signatureBytes` of the tests. -/
def signatureBytes : String :=
  "3065023100efb5177df440d95b97aba930eab9f3ccc40a7b1839283e9ceae5ff5a00f2a7d8d885744ea588c77255736f3a6d3fcb2d02300fac836e12cfe7018da7561e3c35b363f5efe4c689e1790f3d626b7fd86837e69ea900f2bd80c96e01e2da8a2cdb8748"

/-- A stand-in for the cryptography that knows exactly the fixture of the tests: the one
key `ecdsaPublicKey`, and the one signature `signatureBytes`, valid over `fileBytes`. -/
def fixtureCrypto : Crypto where
  parsePEM := fun pem =>
    if pem = goBytes ecdsaPublicKey then some { der := pem } else none
  verify := fun key content sig =>
    key.der == goBytes ecdsaPublicKey && content == fileBytes &&
      sig == (hexDecodeString signatureBytes).1

/-- A file system holding the running executable `server` and nothing else. -/
def fixtureFS : FileSystem :=
  { files := [("server", { content := [0x7f, 0x45, 0x4c, 0x46], executable := true })]
    readFault := []
    target := "server"
    writeFault := false
    renameFault := false }

/-- The updater of `Test_SecureUpdater_CorrectUpdate1`. -/
def fixtureUpdater : SecureUpdater :=
  { publicKey := ecdsaPublicKey, signature := signatureBytes, binLoad := FakeLoader }

/-- The world after the update of `Test_SecureUpdater_CorrectUpdate1` on `fixtureFS`: the
executable holds the bytes 01 02 03, and the four calls have been made. -/
def fixtureUpdated : World :=
  { fs := { fixtureFS with
      files := [("server", { content := [0x01, 0x02, 0x03], executable := true })] }
    calls := [.read, .decodeString signatureBytes, .setPublicKeyPEM (goBytes ecdsaPublicKey),
      .apply fileBytes
        { Signature := (hexDecodeString signatureBytes).1,
          PublicKey := some { der := goBytes ecdsaPublicKey } }] }

/-- The file system `fixtureFS` on a host where writing the temporary file fails. -/
def readOnlyFS : FileSystem :=
  { fixtureFS with writeFault := true }

/-- The file system `fixtureFS` with a candidate binary `v2.exe` of the given bytes next
to the executable. -/
def candidateFS (bytes : List Nat) : FileSystem :=
  { fixtureFS with
    files := fixtureFS.files ++ [("v2.exe", { content := bytes, executable := false })] }

/-- The directory of the tests: `test.txt` holding the text `something to read`. -/
def testFS : FileSystem :=
  { files := [("test.txt", { content := goBytes "something to read", executable := false })]
    readFault := []
    target := "server.test"
    writeFault := false
    renameFault := false }

/-! ## Lemmas on `encoding/hex` -/

theorem hexDecode_error_isHexError (bs : List Nat) (e : Error)
    (h : (hexDecode bs).2 = some e) : e.isHexError = true := by
  induction bs using hexDecode.induct with
  | case1 => simp [hexDecode] at h
  | case2 p hp =>
    simp [hexDecode, hp] at h
    subst h; rfl
  | case3 p x hp =>
    simp [hexDecode, hp] at h
    subst h; rfl
  | case4 p q rest hp =>
    simp [hexDecode, hp] at h
    subst h; rfl
  | case5 p q rest a hp hq =>
    simp [hexDecode, hp, hq] at h
    subst h; rfl
  | case6 p q rest a hp b hq ih =>
    simp [hexDecode, hp, hq] at h
    exact ih h

theorem hexDecode_ok_iff (bs : List Nat) : (hexDecode bs).2 = none ↔ validHex bs := by
  induction bs using hexDecode.induct with
  | case1 => simp [hexDecode, validHex]
  | case2 p hp => simp [hexDecode, hp, validHex]
  | case3 p x hp => simp [hexDecode, hp, validHex]
  | case4 p q rest hp => simp [hexDecode, hp, validHex]
  | case5 p q rest a hp hq => simp [hexDecode, hp, hq, validHex]
  | case6 p q rest a hp b hq ih =>
    simp only [hexDecode, hp, hq]
    rw [ih]
    have hlen : (p :: q :: rest).length % 2 = rest.length % 2 := by
      simp only [List.length_cons]
      omega
    simp only [validHex, hlen]
    simp [hp, hq]

theorem hexDecode_length (bs : List Nat) (h : (hexDecode bs).2 = none) :
    2 * (hexDecode bs).1.length = bs.length := by
  induction bs using hexDecode.induct with
  | case1 => simp [hexDecode]
  | case2 p hp => simp [hexDecode, hp] at h
  | case3 p x hp => simp [hexDecode, hp] at h
  | case4 p q rest hp => simp [hexDecode, hp] at h
  | case5 p q rest a hp hq => simp [hexDecode, hp, hq] at h
  | case6 p q rest a hp b hq ih =>
    simp only [hexDecode, hp, hq] at h ⊢
    have := ih h
    simp only [List.length_cons]
    omega

theorem hexDecode_invalid (bs : List Nat)
    (h : bs.length % 2 = 1 ∨ ∃ b ∈ bs, fromHexChar b = none) :
    ∃ e, (hexDecode bs).2 = some e ∧ e.isHexError = true := by
  cases hr : (hexDecode bs).2 with
  | some e => exact ⟨e, rfl, hexDecode_error_isHexError bs e hr⟩
  | none =>
    exfalso
    obtain ⟨hlen, hall⟩ := (hexDecode_ok_iff bs).1 hr
    rcases h with h | ⟨b, hb, hnone⟩
    · omega
    · have := hall b hb
      simp [hnone] at this

/-! ## The four exits of `update` -/

theorem update_of_read_error (C : Crypto) (u : SecureUpdater) (w : World)
    (b : List Nat) (e : Error) (h : u.binLoad.read w.fs = (b, some e)) :
    u.update C w = (some e, { fs := w.fs, calls := w.calls ++ [.read] }) := by
  simp [SecureUpdater.update, World.log, h]

theorem update_of_hex_error (C : Crypto) (u : SecureUpdater) (w : World)
    (newFile x : List Nat) (e : Error) (h : u.binLoad.read w.fs = (newFile, none))
    (hd : hexDecodeString u.signature = (x, some e)) :
    u.update C w =
      (some e, { fs := w.fs, calls := w.calls ++ [.read, .decodeString u.signature] }) := by
  simp [SecureUpdater.update, World.log, h, hd]

theorem update_of_key_error (C : Crypto) (u : SecureUpdater) (w : World)
    (newFile sig : List Nat) (o : Options) (e : Error)
    (h : u.binLoad.read w.fs = (newFile, none))
    (hd : hexDecodeString u.signature = (sig, none))
    (hk : Options.SetPublicKeyPEM C { Signature := sig, PublicKey := none }
      (goBytes u.publicKey) = (o, some e)) :
    u.update C w =
      (some e, { fs := w.fs, calls := w.calls ++
        [.read, .decodeString u.signature, .setPublicKeyPEM (goBytes u.publicKey)] }) := by
  simp [SecureUpdater.update, World.log, h, hd, hk]

theorem update_of_key_ok (C : Crypto) (u : SecureUpdater) (w : World)
    (newFile sig : List Nat) (opts : Options)
    (h : u.binLoad.read w.fs = (newFile, none))
    (hd : hexDecodeString u.signature = (sig, none))
    (hk : Options.SetPublicKeyPEM C { Signature := sig, PublicKey := none }
      (goBytes u.publicKey) = (opts, none)) :
    u.update C w =
      Apply C newFile opts { fs := w.fs, calls := w.calls ++
        [.read, .decodeString u.signature, .setPublicKeyPEM (goBytes u.publicKey)] } := by
  simp [SecureUpdater.update, World.log, h, hd, hk]

theorem setPublicKeyPEM_cases (C : Crypto) (sig pem : List Nat) :
    Options.SetPublicKeyPEM C { Signature := sig, PublicKey := none } pem =
        ({ Signature := sig, PublicKey := none }, some .invalidPublicKey) ∨
      ∃ key, pem ≠ [] ∧ C.parsePEM pem = some key ∧
        Options.SetPublicKeyPEM C { Signature := sig, PublicKey := none } pem =
          ({ Signature := sig, PublicKey := some key }, none) := by
  unfold Options.SetPublicKeyPEM
  by_cases hp : pem = []
  · simp [hp]
  · cases hk : C.parsePEM pem with
    | none => simp [hp]
    | some key => right; exact ⟨key, hp, rfl, by simp [hp]⟩

theorem goBytes_eq_nil (s : String) (h : s = "") : goBytes s = [] := by
  subst h; rfl

theorem setPublicKeyPEM_bad_key (C : Crypto) (sig : List Nat) (publicKey : String)
    (h : publicKey = "" ∨ C.parsePEM (goBytes publicKey) = none) :
    Options.SetPublicKeyPEM C { Signature := sig, PublicKey := none } (goBytes publicKey) =
      ({ Signature := sig, PublicKey := none }, some .invalidPublicKey) := by
  unfold Options.SetPublicKeyPEM
  rcases h with h | h
  · simp [goBytes_eq_nil publicKey h]
  · by_cases hp : goBytes publicKey = []
    · simp [hp]
    · simp [hp, h]

theorem apply_of_verify_false (C : Crypto) (newFile : List Nat) (opts : Options) (w : World)
    (h : verifySignature C opts newFile = false) :
    Apply C newFile opts w =
      (some .signatureVerificationFailed,
        { fs := w.fs, calls := w.calls ++ [.apply newFile opts] }) := by
  simp [Apply, World.log, h]

theorem apply_of_verify_true (C : Crypto) (newFile : List Nat) (opts : Options) (w : World)
    (h : verifySignature C opts newFile = true) :
    Apply C newFile opts w =
      ((replaceTarget newFile w.fs).1,
        { fs := (replaceTarget newFile w.fs).2, calls := w.calls ++ [.apply newFile opts] }) := by
  simp [Apply, World.log, h]

theorem apply_error_not_hex (C : Crypto) (newFile : List Nat) (opts : Options) (w : World)
    (e : Error) (h : (Apply C newFile opts w).1 = some e) : e.isHexError = false := by
  cases hv : verifySignature C opts newFile with
  | false =>
    rw [apply_of_verify_false C newFile opts w hv] at h
    simp at h; subst h; rfl
  | true =>
    rw [apply_of_verify_true C newFile opts w hv] at h
    simp only [replaceTarget] at h
    split at h
    · simp at h; subst h; rfl
    · split at h
      · simp at h; subst h; rfl
      · simp at h

/-! ## The claims -/

/-- C6: when the loader's `read` returns a non-nil error `e`, `update` returns exactly `e`
at once: whatever the signature and public-key strings are, the only call made is the
`read` (no decoding, no key parsing, no `update.Apply`) and the file system is as before. -/
theorem update_returns_loader_error (C : Crypto) (publicKey signature : String)
    (binLoad : Loader) (w : World) (b : List Nat) (e : Error)
    (h : binLoad.read w.fs = (b, some e)) :
    SecureUpdater.update C
        { publicKey := publicKey, signature := signature, binLoad := binLoad } w =
      (some e, { fs := w.fs, calls := w.calls ++ [.read] }) :=
  update_of_read_error C _ w b e h

/-- C6, at an instance: a `BinLoader` on the missing file `v2.exe`, with the key and
signature of `server.go`. -/
theorem update_returns_loader_error_witness :
    (BinLoader.toLoader { filePath := "v2.exe" }).read (World.start fixtureFS).fs =
        ([], some (.pathError "open" "v2.exe")) ∧
      SecureUpdater.update fixtureCrypto
          { publicKey := ecdsaPublicKey, signature := strSig,
            binLoad := BinLoader.toLoader { filePath := "v2.exe" } } (World.start fixtureFS) =
        (some (.pathError "open" "v2.exe"),
          { fs := (World.start fixtureFS).fs,
            calls := (World.start fixtureFS).calls ++ [.read] }) :=
  ⟨by decide,
   update_returns_loader_error fixtureCrypto ecdsaPublicKey strSig
     (BinLoader.toLoader { filePath := "v2.exe" }) (World.start fixtureFS) []
     (.pathError "open" "v2.exe") (by decide)⟩

/-- C7: for a signature string that is not valid hexadecimal (odd length, or a byte
outside `0-9a-fA-F`) and a loader that succeeds, `update` returns the error of
`hex.DecodeString`, whatever the public key and the candidate bytes are; the calls made
are the `read` and the decoding only, so the error comes before key parsing and before
`update.Apply`, and it differs from the key-parsing error and from every error
`update.Apply` can return, the verification failure among them. -/
theorem update_returns_hex_error (C : Crypto) (publicKey signature : String)
    (binLoad : Loader) (w : World) (newFile : List Nat)
    (hload : binLoad.read w.fs = (newFile, none))
    (hbad : (goBytes signature).length % 2 = 1 ∨
      ∃ b ∈ goBytes signature, fromHexChar b = none) :
    ∃ e, (hexDecodeString signature).2 = some e ∧ e.isHexError = true ∧
      SecureUpdater.update C
          { publicKey := publicKey, signature := signature, binLoad := binLoad } w =
        (some e, { fs := w.fs, calls := w.calls ++ [.read, .decodeString signature] }) ∧
      e ≠ .invalidPublicKey ∧ e ≠ .signatureVerificationFailed ∧
      ∀ (bytes : List Nat) (opts : Options) (w2 : World),
        (Apply C bytes opts w2).1 ≠ some e := by
  obtain ⟨e, he, hhex⟩ := hexDecode_invalid (goBytes signature) hbad
  refine ⟨e, he, hhex, ?_, ?_, ?_, ?_⟩
  · exact update_of_hex_error C
      { publicKey := publicKey, signature := signature, binLoad := binLoad } w newFile
      (hexDecodeString signature).1 e hload (Prod.ext rfl he)
  · intro h; subst h; simp [Error.isHexError] at hhex
  · intro h; subst h; simp [Error.isHexError] at hhex
  · intro bytes opts w2 h
    have := apply_error_not_hex C bytes opts w2 e h
    simp [hhex] at this

/-- C7, at an instance: the odd-length signature `abc` with the key of `server.go` and
the loader of the tests. -/
theorem update_returns_hex_error_witness :
    ∃ e, (hexDecodeString "abc").2 = some e ∧ e.isHexError = true ∧
      SecureUpdater.update fixtureCrypto
          { publicKey := ecdsaPublicKey, signature := "abc", binLoad := FakeLoader }
          (World.start fixtureFS) =
        (some e, { fs := (World.start fixtureFS).fs,
                   calls := (World.start fixtureFS).calls ++ [.read, .decodeString "abc"] }) ∧
      e ≠ .invalidPublicKey ∧ e ≠ .signatureVerificationFailed ∧
      ∀ (bytes : List Nat) (opts : Options) (w2 : World),
        (Apply fixtureCrypto bytes opts w2).1 ≠ some e :=
  update_returns_hex_error fixtureCrypto ecdsaPublicKey "abc" FakeLoader
    (World.start fixtureFS) fileBytes rfl (Or.inl (by decide))

/-- C3: for a public-key string that is empty or holds no parsable PEM public key, and for
every signature string and every loader, `update` never returns nil; when moreover the
loader succeeds and the signature string is valid hexadecimal, the error returned is the
key-parsing error of `SetPublicKeyPEM` and `update.Apply` is not called: the calls are the
`read`, the decoding and the key parsing, and the file system is as before. -/
theorem update_bad_key_fails (C : Crypto) (publicKey signature : String)
    (binLoad : Loader) (w : World)
    (hkey : publicKey = "" ∨ C.parsePEM (goBytes publicKey) = none) :
    (SecureUpdater.update C
        { publicKey := publicKey, signature := signature, binLoad := binLoad } w).1 ≠ none ∧
    ∀ (newFile sig : List Nat), binLoad.read w.fs = (newFile, none) →
      hexDecodeString signature = (sig, none) →
      (Options.SetPublicKeyPEM C { Signature := sig, PublicKey := none }
        (goBytes publicKey)).2 = some .invalidPublicKey ∧
      SecureUpdater.update C
          { publicKey := publicKey, signature := signature, binLoad := binLoad } w =
        (some .invalidPublicKey,
          { fs := w.fs, calls := w.calls ++
            [.read, .decodeString signature, .setPublicKeyPEM (goBytes publicKey)] }) := by
  have key : ∀ (newFile sig : List Nat), binLoad.read w.fs = (newFile, none) →
      hexDecodeString signature = (sig, none) →
      SecureUpdater.update C
          { publicKey := publicKey, signature := signature, binLoad := binLoad } w =
        (some .invalidPublicKey,
          { fs := w.fs, calls := w.calls ++
            [.read, .decodeString signature, .setPublicKeyPEM (goBytes publicKey)] }) := by
    intro newFile sig hload hdec
    exact update_of_key_error C
      { publicKey := publicKey, signature := signature, binLoad := binLoad } w newFile sig _
      .invalidPublicKey hload hdec (setPublicKeyPEM_bad_key C sig publicKey hkey)
  refine ⟨?_, fun newFile sig hload hdec => ⟨?_, key newFile sig hload hdec⟩⟩
  · rcases hr : binLoad.read w.fs with ⟨b, _ | e⟩
    · rcases hd : hexDecodeString signature with ⟨sig, _ | e⟩
      · rw [key b sig hr hd]; simp
      · rw [update_of_hex_error C
          { publicKey := publicKey, signature := signature, binLoad := binLoad } w b sig e hr hd]
        simp
    · rw [update_of_read_error C
        { publicKey := publicKey, signature := signature, binLoad := binLoad } w b e hr]
      simp
  · rw [setPublicKeyPEM_bad_key C sig publicKey hkey]

/-- C3, at the instance of `Test_SecureUpdater_IncorrectPublicKey`: the empty key with
`strSig` and the loader of the tests. -/
theorem update_bad_key_fails_witness :
    (SecureUpdater.update fixtureCrypto
        { publicKey := "", signature := strSig, binLoad := FakeLoader }
        (World.start fixtureFS)).1 ≠ none ∧
    SecureUpdater.update fixtureCrypto
        { publicKey := "", signature := strSig, binLoad := FakeLoader }
        (World.start fixtureFS) =
      (some .invalidPublicKey,
        { fs := (World.start fixtureFS).fs, calls := (World.start fixtureFS).calls ++
          [.read, .decodeString strSig, .setPublicKeyPEM (goBytes "")] }) :=
  ⟨(update_bad_key_fails fixtureCrypto "" strSig FakeLoader (World.start fixtureFS)
      (Or.inl rfl)).1,
   ((update_bad_key_fails fixtureCrypto "" strSig FakeLoader (World.start fixtureFS)
      (Or.inl rfl)).2 fileBytes (hexDecodeString strSig).1 rfl (by decide)).2⟩

/-- C4: for a signature string that is empty or malformed (odd length, or a byte that is
not a hexadecimal digit), and for every public-key string and every loader result,
`update` returns a non-nil error. The empty string is accepted by `hex.DecodeString` as
zero bytes without error, and the call fails all the same. -/
theorem update_bad_signature_fails (C : Crypto) (publicKey signature : String)
    (binLoad : Loader) (w : World)
    (hsig : signature = "" ∨ (goBytes signature).length % 2 = 1 ∨
      ∃ b ∈ goBytes signature, fromHexChar b = none) :
    hexDecodeString "" = ([], none) ∧
    (SecureUpdater.update C
        { publicKey := publicKey, signature := signature, binLoad := binLoad } w).1 ≠ none := by
  refine ⟨rfl, ?_⟩
  rcases hr : binLoad.read w.fs with ⟨newFile, _ | e⟩
  swap
  · rw [update_of_read_error C
      { publicKey := publicKey, signature := signature, binLoad := binLoad } w newFile e hr]
    simp
  rcases hsig with hempty | hbad
  · subst hempty
    have hd : hexDecodeString "" = ([], none) := rfl
    rcases setPublicKeyPEM_cases C [] (goBytes publicKey) with hk | ⟨key, _, _, hk⟩
    · rw [update_of_key_error C
        { publicKey := publicKey, signature := "", binLoad := binLoad } w newFile [] _
        .invalidPublicKey hr hd hk]
      simp
    · rw [update_of_key_ok C
        { publicKey := publicKey, signature := "", binLoad := binLoad } w newFile [] _
        hr hd hk, apply_of_verify_false C newFile _ _ (by simp [verifySignature])]
      simp
  · obtain ⟨e, he, _⟩ := hexDecode_invalid (goBytes signature) hbad
    rw [update_of_hex_error C
      { publicKey := publicKey, signature := signature, binLoad := binLoad } w newFile
      (hexDecodeString signature).1 e hr (Prod.ext rfl he)]
    simp

/-- C4, at the instance of `Test_SecureUpdater_IncorrectSignature`: the empty signature
with `ecdsaPublicKey` and the loader of the tests, which returns the bytes 01 02 03. -/
theorem update_bad_signature_fails_witness :
    hexDecodeString "" = ([], none) ∧
    (SecureUpdater.update fixtureCrypto
        { publicKey := ecdsaPublicKey, signature := "", binLoad := FakeLoader }
        (World.start fixtureFS)).1 ≠ none :=
  update_bad_signature_fails fixtureCrypto ecdsaPublicKey "" FakeLoader
    (World.start fixtureFS) (Or.inl rfl)

/-- C8, refuted as stated: the empty signature string passes the decoding step. With the
loader of the tests, `hex.DecodeString` returns zero bytes and no error; with an empty key
`update` then fails at key parsing, and with `ecdsaPublicKey` it fails inside
`update.Apply`; in neither case is the error an error of `encoding/hex`, and in both the
key has been parsed. -/
theorem empty_signature_passes_decoding :
    hexDecodeString "" = ([], none) ∧
    SecureUpdater.update fixtureCrypto
        { publicKey := "", signature := "", binLoad := FakeLoader } (World.start fixtureFS) =
      (some .invalidPublicKey,
        { fs := fixtureFS, calls := [.read, .decodeString "", .setPublicKeyPEM []] }) ∧
    SecureUpdater.update fixtureCrypto
        { publicKey := ecdsaPublicKey, signature := "", binLoad := FakeLoader }
        (World.start fixtureFS) =
      (some .signatureVerificationFailed,
        { fs := fixtureFS,
          calls := [.read, .decodeString "", .setPublicKeyPEM (goBytes ecdsaPublicKey),
            .apply fileBytes
              { Signature := [], PublicKey := some { der := goBytes ecdsaPublicKey } }] }) ∧
    (SecureUpdater.update fixtureCrypto
        { publicKey := ecdsaPublicKey, signature := "", binLoad := FakeLoader }
        (World.start fixtureFS)).2.calls.any Call.isSetPublicKeyPEM = true ∧
    (SecureUpdater.update fixtureCrypto
        { publicKey := ecdsaPublicKey, signature := "", binLoad := FakeLoader }
        (World.start fixtureFS)).2.calls.any Call.isApply = true ∧
    ¬ ∃ e, (SecureUpdater.update fixtureCrypto
          { publicKey := ecdsaPublicKey, signature := "", binLoad := FakeLoader }
          (World.start fixtureFS)).1 = some e ∧ e.isHexError = true := by
  refine ⟨rfl, by decide, by decide, by decide, by decide, ?_⟩
  rintro ⟨e, he, hhex⟩
  have h : (SecureUpdater.update fixtureCrypto
      { publicKey := ecdsaPublicKey, signature := "", binLoad := FakeLoader }
      (World.start fixtureFS)).1 = some .signatureVerificationFailed := by decide
  rw [h] at he
  cases he
  simp [Error.isHexError] at hhex

/-- C8, amended: for every signature string that is valid hexadecimal, whatever the
length it decodes to, the empty string included, and every loader that succeeds, `update`
does not fail at the signature-decoding step: `hex.DecodeString` returns the decoded
bytes, half as many as the string has, without error and with no check of their length;
the key is then parsed, and `update` either returns the key-parsing error or hands exactly
those bytes to `update.Apply`; no error it returns is an error of `encoding/hex`. For the
empty string `update` then fails, with the key-parsing error or with the verification
error of `update.Apply`, and the file system is untouched. -/
theorem update_valid_hex_passes_decoding (C : Crypto) (publicKey signature : String)
    (binLoad : Loader) (w : World) (newFile : List Nat)
    (hload : binLoad.read w.fs = (newFile, none))
    (hhex : validHex (goBytes signature)) :
    ∃ sig, hexDecodeString signature = (sig, none) ∧
      2 * sig.length = (goBytes signature).length ∧
      (SecureUpdater.update C
          { publicKey := publicKey, signature := signature, binLoad := binLoad } w =
        (some .invalidPublicKey,
          { fs := w.fs, calls := w.calls ++
            [.read, .decodeString signature, .setPublicKeyPEM (goBytes publicKey)] }) ∨
       ∃ key, C.parsePEM (goBytes publicKey) = some key ∧
        SecureUpdater.update C
          { publicKey := publicKey, signature := signature, binLoad := binLoad } w =
        Apply C newFile { Signature := sig, PublicKey := some key }
          { fs := w.fs, calls := w.calls ++
            [.read, .decodeString signature, .setPublicKeyPEM (goBytes publicKey)] }) ∧
      (∀ e, (SecureUpdater.update C
          { publicKey := publicKey, signature := signature, binLoad := binLoad } w).1 =
        some e → e.isHexError = false) ∧
      (signature = "" →
        sig = [] ∧
        (SecureUpdater.update C
          { publicKey := publicKey, signature := signature, binLoad := binLoad } w).2.fs =
            w.fs ∧
        ((SecureUpdater.update C
            { publicKey := publicKey, signature := signature, binLoad := binLoad } w).1 =
              some .invalidPublicKey ∨
         (SecureUpdater.update C
            { publicKey := publicKey, signature := signature, binLoad := binLoad } w).1 =
              some .signatureVerificationFailed)) := by
  have hok : (hexDecodeString signature).2 = none :=
    (hexDecode_ok_iff (goBytes signature)).2 hhex
  have hdec : hexDecodeString signature = ((hexDecodeString signature).1, none) :=
    Prod.ext rfl hok
  refine ⟨(hexDecodeString signature).1, hdec,
    hexDecode_length (goBytes signature) hok, ?_⟩
  rcases setPublicKeyPEM_cases C (hexDecodeString signature).1 (goBytes publicKey) with
    hk | ⟨key, _, hparse, hk⟩
  · have hu := update_of_key_error C
      { publicKey := publicKey, signature := signature, binLoad := binLoad } w newFile
      (hexDecodeString signature).1 _ .invalidPublicKey hload hdec hk
    refine ⟨Or.inl hu, ?_, ?_⟩
    · intro e he
      rw [hu] at he
      simp at he
      subst he; rfl
    · intro hempty
      subst hempty
      rw [hu]
      exact ⟨rfl, rfl, Or.inl rfl⟩
  · have hu := update_of_key_ok C
      { publicKey := publicKey, signature := signature, binLoad := binLoad } w newFile
      (hexDecodeString signature).1 _ hload hdec hk
    refine ⟨Or.inr ⟨key, hparse, hu⟩, ?_, ?_⟩
    · intro e he
      rw [hu] at he
      exact apply_error_not_hex C newFile _ _ e he
    · intro hempty
      subst hempty
      have hnil : (hexDecodeString "").1 = [] := rfl
      rw [hu, hnil, apply_of_verify_false C newFile _ _ (by simp [verifySignature])]
      exact ⟨rfl, rfl, Or.inr rfl⟩

/-- C8 amended, at two instances with `ecdsaPublicKey` and the loader of the tests: the
empty signature of `Test_SecureUpdater_IncorrectSignature`, and the signature `00`, one
byte long; both pass the decoding step and both updates end in the verification error
of `update.Apply`. -/
theorem update_valid_hex_passes_decoding_witness :
    (validHex (goBytes "") ∧ hexDecodeString "" = ([], none) ∧
      (SecureUpdater.update fixtureCrypto
          { publicKey := ecdsaPublicKey, signature := "", binLoad := FakeLoader }
          (World.start fixtureFS)).2.fs = fixtureFS ∧
      ((SecureUpdater.update fixtureCrypto
          { publicKey := ecdsaPublicKey, signature := "", binLoad := FakeLoader }
          (World.start fixtureFS)).1 = some .invalidPublicKey ∨
       (SecureUpdater.update fixtureCrypto
          { publicKey := ecdsaPublicKey, signature := "", binLoad := FakeLoader }
          (World.start fixtureFS)).1 = some .signatureVerificationFailed)) ∧
    (validHex (goBytes "00") ∧ hexDecodeString "00" = ([0], none) ∧
      SecureUpdater.update fixtureCrypto
          { publicKey := ecdsaPublicKey, signature := "00", binLoad := FakeLoader }
          (World.start fixtureFS) =
        (some .signatureVerificationFailed,
          { fs := fixtureFS,
            calls := [.read, .decodeString "00", .setPublicKeyPEM (goBytes ecdsaPublicKey),
              .apply fileBytes
                { Signature := [0],
                  PublicKey := some { der := goBytes ecdsaPublicKey } }] }) ∧
      ∀ e, (SecureUpdater.update fixtureCrypto
          { publicKey := ecdsaPublicKey, signature := "00", binLoad := FakeLoader }
          (World.start fixtureFS)).1 = some e → e.isHexError = false) :=
  match update_valid_hex_passes_decoding fixtureCrypto ecdsaPublicKey "" FakeLoader
      (World.start fixtureFS) fileBytes rfl (by decide),
    update_valid_hex_passes_decoding fixtureCrypto ecdsaPublicKey "00" FakeLoader
      (World.start fixtureFS) fileBytes rfl (by decide) with
  | ⟨_, _, _, _, _, h5⟩, ⟨_, _, _, _, g4, _⟩ =>
    ⟨⟨by decide, rfl, (h5 rfl).2.1, (h5 rfl).2.2⟩, ⟨by decide, by decide, by decide, g4⟩⟩

/-! ## The replacement step -/

theorem lookup_write_same (fs : FileSystem) (path : String) (f : File) :
    (fs.write path f).lookup path = some f := by
  simp [FileSystem.lookup, FileSystem.write, List.lookup]

theorem chmodExec_target (fs : FileSystem) (path : String) :
    (fs.chmodExec path).target = fs.target := by
  unfold FileSystem.chmodExec
  split <;> rfl

theorem chmodExec_write (fs : FileSystem) (path : String) (f : File) :
    (fs.write path f).chmodExec path =
      (fs.write path f).write path { f with executable := true } := by
  simp [FileSystem.chmodExec, lookup_write_same]

theorem rename_of_lookup (fs : FileSystem) (src dst : String) (f : File)
    (h : fs.lookup src = some f) : fs.rename src dst = (fs.remove src).write dst f := by
  simp [FileSystem.rename, h]

theorem replaceTarget_faults (newBytes : List Nat) (fs : FileSystem)
    (h : (replaceTarget newBytes fs).1 = none) :
    fs.writeFault = false ∧ fs.renameFault = false := by
  unfold replaceTarget at h
  cases hw : fs.writeFault with
  | true => simp [hw] at h
  | false =>
    cases hn : fs.renameFault with
    | true => simp [hw, hn] at h
    | false => exact ⟨rfl, rfl⟩

theorem replaceTarget_ok (newBytes : List Nat) (fs : FileSystem)
    (h : (replaceTarget newBytes fs).1 = none) :
    fs.writeFault = false ∧ fs.renameFault = false ∧
      (replaceTarget newBytes fs).2.target = fs.target ∧
      (replaceTarget newBytes fs).2.lookup fs.target =
        some { content := newBytes, executable := true } := by
  obtain ⟨hw, hn⟩ := replaceTarget_faults newBytes fs h
  have hstaged : ((fs.write (tempPath fs.target)
      { content := newBytes, executable := false }).chmodExec
        (tempPath fs.target)).lookup (tempPath fs.target) =
      some { content := newBytes, executable := true } := by
    rw [chmodExec_write, lookup_write_same]
  have hr : (replaceTarget newBytes fs).2 =
      (((fs.write (tempPath fs.target)
        { content := newBytes, executable := false }).chmodExec
          (tempPath fs.target)).remove (tempPath fs.target)).write fs.target
            { content := newBytes, executable := true } := by
    simp only [replaceTarget, hw, hn, Bool.false_eq_true, if_false]
    exact rename_of_lookup _ _ _ _ hstaged
  rw [hr]
  refine ⟨hw, hn, ?_, lookup_write_same _ _ _⟩
  show ((fs.write (tempPath fs.target)
    { content := newBytes, executable := false }).chmodExec (tempPath fs.target)).target = _
  rw [chmodExec_target]
  rfl

theorem replaceTarget_of_no_fault (newBytes : List Nat) (fs : FileSystem)
    (hw : fs.writeFault = false) (hn : fs.renameFault = false) :
    (replaceTarget newBytes fs).1 = none := by
  simp [replaceTarget, hw, hn]

theorem replaceTarget_error (newBytes : List Nat) (fs : FileSystem) (e : Error)
    (h : (replaceTarget newBytes fs).1 = some e) : e = .replacementFailed := by
  unfold replaceTarget at h
  split at h
  · simp at h; exact h.symm
  · split at h
    · simp at h; exact h.symm
    · simp at h

/-- C1: a failing `update` leaves the file system, the update target with it, as it was,
in each of the four ways of failing before the replacement: the loader failed, the
signature string failed hex decoding, the public key failed to parse, or the signature did
not verify against the loaded bytes. In the first three `update.Apply` is not called at
all: the calls are the `read`, then the decoding, then the key parsing, and no more, none
of them a call of `update.Apply`. -/
theorem update_failure_leaves_target (C : Crypto) (u : SecureUpdater) (w : World) :
    (∀ (b : List Nat) (e : Error), u.binLoad.read w.fs = (b, some e) →
      (u.update C w).1 = some e ∧ (u.update C w).2.fs = w.fs ∧
      (u.update C w).2.fs.targetContent = w.fs.targetContent ∧
      (u.update C w).2.calls = w.calls ++ [.read] ∧
      (u.update C w).2.calls.filter Call.isApply = w.calls.filter Call.isApply) ∧
    (∀ (newFile : List Nat), u.binLoad.read w.fs = (newFile, none) →
      (∀ (x : List Nat) (e : Error), hexDecodeString u.signature = (x, some e) →
        (u.update C w).1 = some e ∧ (u.update C w).2.fs = w.fs ∧
        (u.update C w).2.fs.targetContent = w.fs.targetContent ∧
        (u.update C w).2.calls = w.calls ++ [.read, .decodeString u.signature] ∧
        (u.update C w).2.calls.filter Call.isApply = w.calls.filter Call.isApply) ∧
      (∀ (sig : List Nat), hexDecodeString u.signature = (sig, none) →
        (∀ (o : Options) (e : Error),
          Options.SetPublicKeyPEM C { Signature := sig, PublicKey := none }
            (goBytes u.publicKey) = (o, some e) →
          (u.update C w).1 = some e ∧ (u.update C w).2.fs = w.fs ∧
          (u.update C w).2.fs.targetContent = w.fs.targetContent ∧
          (u.update C w).2.calls = w.calls ++
            [.read, .decodeString u.signature, .setPublicKeyPEM (goBytes u.publicKey)] ∧
          (u.update C w).2.calls.filter Call.isApply = w.calls.filter Call.isApply) ∧
        (∀ (opts : Options),
          Options.SetPublicKeyPEM C { Signature := sig, PublicKey := none }
            (goBytes u.publicKey) = (opts, none) →
          verifySignature C opts newFile = false →
          (u.update C w).1 = some .signatureVerificationFailed ∧
          (u.update C w).2.fs = w.fs ∧
          (u.update C w).2.fs.targetContent = w.fs.targetContent))) := by
  refine ⟨?_, ?_⟩
  · intro b e h
    rw [update_of_read_error C u w b e h]
    exact ⟨rfl, rfl, rfl, rfl, by simp [Call.isApply]⟩
  · intro newFile hload
    refine ⟨?_, ?_⟩
    · intro x e hd
      rw [update_of_hex_error C u w newFile x e hload hd]
      exact ⟨rfl, rfl, rfl, rfl, by simp [Call.isApply]⟩
    · intro sig hd
      refine ⟨?_, ?_⟩
      · intro o e hk
        rw [update_of_key_error C u w newFile sig o e hload hd hk]
        exact ⟨rfl, rfl, rfl, rfl, by simp [Call.isApply]⟩
      · intro opts hk hv
        rw [update_of_key_ok C u w newFile sig opts hload hd hk,
          apply_of_verify_false C newFile opts _ hv]
        exact ⟨rfl, rfl, rfl⟩

/-- C1, at four instances over the running executable of the fixture: a loader on a
missing file, the signature `zz`, the empty key, and the signature `strSig`, which is not
a signature over the bytes 01 02 03. -/
theorem update_failure_leaves_target_witness :
    (SecureUpdater.update fixtureCrypto
        { publicKey := ecdsaPublicKey, signature := signatureBytes,
          binLoad := BinLoader.toLoader { filePath := "v2.exe" } }
        (World.start fixtureFS)).2.fs.targetContent = some [0x7f, 0x45, 0x4c, 0x46] ∧
    (SecureUpdater.update fixtureCrypto
        { publicKey := ecdsaPublicKey, signature := "zz", binLoad := FakeLoader }
        (World.start fixtureFS)).2.fs.targetContent = some [0x7f, 0x45, 0x4c, 0x46] ∧
    (SecureUpdater.update fixtureCrypto
        { publicKey := "", signature := signatureBytes, binLoad := FakeLoader }
        (World.start fixtureFS)).2.fs.targetContent = some [0x7f, 0x45, 0x4c, 0x46] ∧
    (SecureUpdater.update fixtureCrypto
        { publicKey := ecdsaPublicKey, signature := strSig, binLoad := FakeLoader }
        (World.start fixtureFS)).2.fs.targetContent = some [0x7f, 0x45, 0x4c, 0x46] :=
  ⟨((update_failure_leaves_target fixtureCrypto
      { publicKey := ecdsaPublicKey, signature := signatureBytes,
        binLoad := BinLoader.toLoader { filePath := "v2.exe" } }
      (World.start fixtureFS)).1 [] (.pathError "open" "v2.exe") (by decide)).2.2.1,
   (((update_failure_leaves_target fixtureCrypto
      { publicKey := ecdsaPublicKey, signature := "zz", binLoad := FakeLoader }
      (World.start fixtureFS)).2 fileBytes rfl).1 [] (.invalidByte 122) (by decide)).2.2.1,
   ((((update_failure_leaves_target fixtureCrypto
      { publicKey := "", signature := signatureBytes, binLoad := FakeLoader }
      (World.start fixtureFS)).2 fileBytes rfl).2 (hexDecodeString signatureBytes).1
        (by decide)).1
        { Signature := (hexDecodeString signatureBytes).1, PublicKey := none }
        .invalidPublicKey (by decide)).2.2.1,
   ((((update_failure_leaves_target fixtureCrypto
      { publicKey := ecdsaPublicKey, signature := strSig, binLoad := FakeLoader }
      (World.start fixtureFS)).2 fileBytes rfl).2 (hexDecodeString strSig).1
        (by decide)).2
        { Signature := (hexDecodeString strSig).1,
          PublicKey := some { der := goBytes ecdsaPublicKey } }
        (by decide) (by decide)).2.2⟩

/-- C5: `update` returns nil only if the loader returned bytes `B` without error, the
signature string hex-decoded without error, the public key parsed without error, and
`update.Apply` was called once, as the last call, on exactly `B` with that decoded
signature and parsed key, verified the signature and returned nil; and then the update
target holds exactly `B` and is marked executable. -/
theorem update_success_only_if (C : Crypto) (u : SecureUpdater) (w w2 : World)
    (h : u.update C w = (none, w2)) :
    ∃ (B sig : List Nat) (key : PublicKey),
      u.binLoad.read w.fs = (B, none) ∧
      hexDecodeString u.signature = (sig, none) ∧
      Options.SetPublicKeyPEM C { Signature := sig, PublicKey := none }
        (goBytes u.publicKey) = ({ Signature := sig, PublicKey := some key }, none) ∧
      Apply C B { Signature := sig, PublicKey := some key }
        { fs := w.fs, calls := w.calls ++
          [.read, .decodeString u.signature, .setPublicKeyPEM (goBytes u.publicKey)] } =
        (none, w2) ∧
      w2.calls = w.calls ++
        [.read, .decodeString u.signature, .setPublicKeyPEM (goBytes u.publicKey),
          .apply B { Signature := sig, PublicKey := some key }] ∧
      (w2.calls.filter Call.isApply).length = (w.calls.filter Call.isApply).length + 1 ∧
      verifySignature C { Signature := sig, PublicKey := some key } B = true ∧
      w2.fs.target = w.fs.target ∧
      w2.fs.lookup w2.fs.target = some { content := B, executable := true } ∧
      w2.fs.targetContent = some B := by
  rcases hr : u.binLoad.read w.fs with ⟨B, _ | e⟩
  swap
  · rw [update_of_read_error C u w B e hr] at h
    simp at h
  rcases hd : hexDecodeString u.signature with ⟨sig, _ | e⟩
  swap
  · rw [update_of_hex_error C u w B sig e hr hd] at h
    simp at h
  rcases setPublicKeyPEM_cases C sig (goBytes u.publicKey) with hk | ⟨key, _, _, hk⟩
  · rw [update_of_key_error C u w B sig _ _ hr hd hk] at h
    simp at h
  rw [update_of_key_ok C u w B sig _ hr hd hk] at h
  cases hv : verifySignature C { Signature := sig, PublicKey := some key } B with
  | false =>
    rw [apply_of_verify_false C B _ _ hv] at h
    simp at h
  | true =>
    have h2 := h
    rw [apply_of_verify_true C B _ _ hv] at h2
    have h1 : (replaceTarget B w.fs).1 = none := congrArg Prod.fst h2
    have hw2 : w2 = { fs := (replaceTarget B w.fs).2, calls := (w.calls ++
        [.read, .decodeString u.signature, .setPublicKeyPEM (goBytes u.publicKey)]) ++
        [.apply B { Signature := sig, PublicKey := some key }] } :=
      (congrArg Prod.snd h2).symm
    obtain ⟨_, _, htarget, hlookup⟩ := replaceTarget_ok B w.fs h1
    have hl : w2.fs.lookup w2.fs.target = some { content := B, executable := true } := by
      rw [hw2]
      show (replaceTarget B w.fs).2.lookup (replaceTarget B w.fs).2.target = _
      rw [htarget, hlookup]
    refine ⟨B, sig, key, rfl, rfl, hk, h, ?_, ?_, hv, ?_, hl, ?_⟩
    · rw [hw2]; simp
    · rw [hw2]; simp [Call.isApply]
    · rw [hw2]; exact htarget
    · simp [FileSystem.targetContent, hl]

/-- C5, at the instance of `Test_SecureUpdater_CorrectUpdate1`: the update succeeds and
the target holds the bytes 01 02 03, executable. -/
theorem update_success_only_if_witness :
    fixtureUpdater.update fixtureCrypto (World.start fixtureFS) = (none, fixtureUpdated) ∧
    ∃ (B sig : List Nat) (key : PublicKey),
      fixtureUpdater.binLoad.read (World.start fixtureFS).fs = (B, none) ∧
      hexDecodeString fixtureUpdater.signature = (sig, none) ∧
      Options.SetPublicKeyPEM fixtureCrypto { Signature := sig, PublicKey := none }
        (goBytes fixtureUpdater.publicKey) =
          ({ Signature := sig, PublicKey := some key }, none) ∧
      Apply fixtureCrypto B { Signature := sig, PublicKey := some key }
        { fs := (World.start fixtureFS).fs, calls := (World.start fixtureFS).calls ++
          [.read, .decodeString fixtureUpdater.signature,
            .setPublicKeyPEM (goBytes fixtureUpdater.publicKey)] } =
        (none, fixtureUpdated) ∧
      fixtureUpdated.calls = (World.start fixtureFS).calls ++
        [.read, .decodeString fixtureUpdater.signature,
          .setPublicKeyPEM (goBytes fixtureUpdater.publicKey),
          .apply B { Signature := sig, PublicKey := some key }] ∧
      (fixtureUpdated.calls.filter Call.isApply).length =
        ((World.start fixtureFS).calls.filter Call.isApply).length + 1 ∧
      verifySignature fixtureCrypto { Signature := sig, PublicKey := some key } B = true ∧
      fixtureUpdated.fs.target = (World.start fixtureFS).fs.target ∧
      fixtureUpdated.fs.lookup fixtureUpdated.fs.target =
        some { content := B, executable := true } ∧
      fixtureUpdated.fs.targetContent = some B :=
  ⟨by decide,
   update_success_only_if fixtureCrypto fixtureUpdater (World.start fixtureFS)
     fixtureUpdated (by decide)⟩

/-- C2, refuted as stated: the signature `signatureBytes` is valid over the bytes 01 02 03
under `ecdsaPublicKey`, the loader returns those bytes, and yet on a host where the
temporary file cannot be written `update` returns a non-nil error, the replacement
failure of `update.Apply`. -/
theorem valid_signature_update_not_nil :
    FakeLoader.read (World.start readOnlyFS).fs = (fileBytes, none) ∧
    hexDecodeString signatureBytes = ((hexDecodeString signatureBytes).1, none) ∧
    Options.SetPublicKeyPEM fixtureCrypto
        { Signature := (hexDecodeString signatureBytes).1, PublicKey := none }
        (goBytes ecdsaPublicKey) =
      ({ Signature := (hexDecodeString signatureBytes).1,
         PublicKey := some { der := goBytes ecdsaPublicKey } }, none) ∧
    verifySignature fixtureCrypto
        { Signature := (hexDecodeString signatureBytes).1,
          PublicKey := some { der := goBytes ecdsaPublicKey } } fileBytes = true ∧
    (fixtureUpdater.update fixtureCrypto (World.start readOnlyFS)).1 =
      some .replacementFailed ∧
    (fixtureUpdater.update fixtureCrypto (World.start readOnlyFS)).1 ≠ none := by
  decide

/-- C2, amended: let the signature string decode to `S`, the key string parse to `K`, and
`S` be a valid signature over `B` under `K`, validity binding a signature to one content.
For every loader returning `B`, `update` passes loading, decoding, key parsing and
verification: its result is the result of the replacement step, nil when neither the
write nor the rename fails and the replacement failure otherwise. For every loader
returning bytes `B2` different from `B`, with the same `S` and `K`, `update` returns a
non-nil error, the verification error, and the file system is untouched. -/
theorem update_verification_sound (C : Crypto) (publicKey signature : String) (w : World)
    (S : List Nat) (K : PublicKey) (B : List Nat)
    (hS : hexDecodeString signature = (S, none))
    (hK : Options.SetPublicKeyPEM C { Signature := S, PublicKey := none }
      (goBytes publicKey) = ({ Signature := S, PublicKey := some K }, none))
    (hvalid : verifySignature C { Signature := S, PublicKey := some K } B = true)
    (hbind : ∀ (key : PublicKey) (sig b1 b2 : List Nat),
      C.verify key b1 sig = true → C.verify key b2 sig = true → b1 = b2) :
    (∀ (binLoad : Loader), binLoad.read w.fs = (B, none) →
      (SecureUpdater.update C
        { publicKey := publicKey, signature := signature, binLoad := binLoad } w).1 =
          (replaceTarget B w.fs).1 ∧
      ((SecureUpdater.update C
        { publicKey := publicKey, signature := signature, binLoad := binLoad } w).1 = none ∨
       (SecureUpdater.update C
        { publicKey := publicKey, signature := signature, binLoad := binLoad } w).1 =
          some .replacementFailed) ∧
      (w.fs.writeFault = false → w.fs.renameFault = false →
        (SecureUpdater.update C
          { publicKey := publicKey, signature := signature, binLoad := binLoad } w).1 =
            none)) ∧
    (∀ (binLoad : Loader) (B2 : List Nat), binLoad.read w.fs = (B2, none) → B2 ≠ B →
      (SecureUpdater.update C
        { publicKey := publicKey, signature := signature, binLoad := binLoad } w).1 ≠
          none ∧
      (SecureUpdater.update C
        { publicKey := publicKey, signature := signature, binLoad := binLoad } w).1 =
          some .signatureVerificationFailed ∧
      (SecureUpdater.update C
        { publicKey := publicKey, signature := signature, binLoad := binLoad } w).2.fs =
          w.fs) := by
  refine ⟨?_, ?_⟩
  · intro binLoad hload
    have hu : (SecureUpdater.update C
        { publicKey := publicKey, signature := signature, binLoad := binLoad } w).1 =
          (replaceTarget B w.fs).1 := by
      rw [update_of_key_ok C
        { publicKey := publicKey, signature := signature, binLoad := binLoad } w B S _
        hload hS hK, apply_of_verify_true C B _ _ hvalid]
    refine ⟨hu, ?_, ?_⟩
    · rw [hu]
      cases hr : (replaceTarget B w.fs).1 with
      | none => exact Or.inl rfl
      | some e => rw [replaceTarget_error B w.fs e hr]; exact Or.inr rfl
    · intro hw hn
      rw [hu]
      exact replaceTarget_of_no_fault B w.fs hw hn
  · intro binLoad B2 hload hne
    have hB : C.verify K B S = true := by
      simp only [verifySignature, Bool.and_eq_true] at hvalid
      exact hvalid.2
    have hv : verifySignature C { Signature := S, PublicKey := some K } B2 = false := by
      cases h2 : C.verify K B2 S with
      | false => simp [verifySignature, h2]
      | true => exact absurd (hbind K S B2 B h2 hB) hne
    rw [update_of_key_ok C
      { publicKey := publicKey, signature := signature, binLoad := binLoad } w B2 S _
      hload hS hK, apply_of_verify_false C B2 _ _ hv]
    exact ⟨by simp, rfl, rfl⟩

/-- C2 amended, at the instance of `Test_SecureUpdater_CorrectUpdate1`: with the bytes
01 02 03 the update returns nil, and with the bytes 01 02 04 in `v2.exe`, the same
signature and key, it returns the verification error. -/
theorem update_verification_sound_witness :
    (SecureUpdater.update fixtureCrypto
        { publicKey := ecdsaPublicKey, signature := signatureBytes, binLoad := FakeLoader }
        (World.start (candidateFS [1, 2, 4]))).1 = none ∧
    (SecureUpdater.update fixtureCrypto
        { publicKey := ecdsaPublicKey, signature := signatureBytes,
          binLoad := BinLoader.toLoader { filePath := "v2.exe" } }
        (World.start (candidateFS [1, 2, 4]))).1 = some .signatureVerificationFailed :=
  have hbind : ∀ (key : PublicKey) (sig b1 b2 : List Nat),
      fixtureCrypto.verify key b1 sig = true → fixtureCrypto.verify key b2 sig = true →
        b1 = b2 := by
    intro key sig b1 b2 h1 h2
    simp only [fixtureCrypto, Bool.and_eq_true, beq_iff_eq] at h1 h2
    exact h1.1.2.trans h2.1.2.symm
  ⟨((update_verification_sound fixtureCrypto ecdsaPublicKey signatureBytes
      (World.start (candidateFS [1, 2, 4])) (hexDecodeString signatureBytes).1
      { der := goBytes ecdsaPublicKey } fileBytes (by decide) (by decide) (by decide)
      hbind).1 FakeLoader rfl).2.2 rfl rfl,
   ((update_verification_sound fixtureCrypto ecdsaPublicKey signatureBytes
      (World.start (candidateFS [1, 2, 4])) (hexDecodeString signatureBytes).1
      { der := goBytes ecdsaPublicKey } fileBytes (by decide) (by decide) (by decide)
      hbind).2 (BinLoader.toLoader { filePath := "v2.exe" }) [1, 2, 4] (by decide)
      (by decide)).2.1⟩

/-! ## The JSON answer of `install` -/

theorem flatMap_jsonEscapeChar_of_safe (cs : List Char)
    (h : ∀ c ∈ cs, jsonEscapeChar c = [c]) : cs.flatMap jsonEscapeChar = cs := by
  induction cs with
  | nil => rfl
  | cons c cs ih =>
    rw [List.flatMap_cons, h c (List.mem_cons_self c cs),
      ih (fun d hd => h d (List.mem_cons_of_mem c hd))]
    rfl

theorem jsonString_of_safe (s : String) (h : ∀ c ∈ s.data, jsonEscapeChar c = [c]) :
    jsonString s = quote ++ s ++ quote := by
  apply String.ext
  simp [jsonString, quote, String.data_append, flatMap_jsonEscapeChar_of_safe s.data h]

theorem jsonString_success_ne_failed (v : String) :
    jsonString ("Updated SUCCESS to version: " ++ v) ≠ jsonString "update failed!" := by
  intro h
  have hd := congrArg String.data h
  have hp : "Updated SUCCESS to version: ".data.flatMap jsonEscapeChar =
      "Updated SUCCESS to version: ".data := by decide
  have hf : (jsonString "update failed!").data =
      (quote ++ "update failed!" ++ quote).data := by decide
  simp only [jsonString, String.data_append, List.flatMap_append, hp] at hd
  have hf2 : (jsonString "update failed!").data = _ := hf
  simp only [jsonString] at hf2
  rw [hf2] at hd
  simp [quote, String.data_append] at hd

theorem string_append_left_cancel (a b c : String) (h : a ++ b = a ++ c) : b = c := by
  apply String.ext
  have hd := congrArg String.data h
  simpa [String.data_append] using hd

/-- C9: `install` always writes a response; the body written is the JSON encoding of the
string `update failed!` if and only if `ctx.binUpdate.update()` returns a non-nil error,
and otherwise it is the JSON encoding of `Updated SUCCESS to version: ` followed by
`ctx.status.NewVersion`; it never writes the success body when `update` returned an error.
When no character of `NewVersion` is one JSON escapes, the success body is exactly the
message between double quotes. -/
theorem install_response (ctx : Context) (rw : ResponseWriter) (world : World) :
    ∃ rw2, (ctx.install rw world).1 = some rw2 ∧
      (rw2.body = rw.body ++ jsonString "update failed!" ↔
        (ctx.binUpdate.update world).1 ≠ none) ∧
      ((ctx.binUpdate.update world).1 = none →
        rw2.body = rw.body ++
          jsonString ("Updated SUCCESS to version: " ++ ctx.status.NewVersion)) ∧
      ((ctx.binUpdate.update world).1 ≠ none →
        rw2.body ≠ rw.body ++
          jsonString ("Updated SUCCESS to version: " ++ ctx.status.NewVersion)) ∧
      ((ctx.binUpdate.update world).1 = none →
        (∀ c ∈ ctx.status.NewVersion.data, jsonEscapeChar c = [c]) →
        rw2.body = rw.body ++
          (quote ++ ("Updated SUCCESS to version: " ++ ctx.status.NewVersion) ++ quote)) := by
  rcases hu : ctx.binUpdate.update world with ⟨_ | e, world2⟩
  · refine ⟨ResponseWriter.mk (("Content-Type", "application/json") ::
        rw.header.filter (fun e => e.1 != "Content-Type"))
      (rw.body ++ jsonString ("Updated SUCCESS to version: " ++ ctx.status.NewVersion)),
      ?_, ?_, ?_, ?_, ?_⟩
    · simp [Context.install, hu, sendJson, jsonMarshal]
    · simp only [ne_eq, not_true_eq_false, iff_false]
      intro h
      exact jsonString_success_ne_failed _ (string_append_left_cancel _ _ _ h)
    · intro _; rfl
    · intro h; exact absurd rfl h
    · intro _ hsafe
      have hp : ∀ c ∈ "Updated SUCCESS to version: ".data, jsonEscapeChar c = [c] := by
        decide
      rw [jsonString_of_safe]
      intro c hc
      rw [String.data_append, List.mem_append] at hc
      rcases hc with hc | hc
      · exact hp c hc
      · exact hsafe c hc
  · refine ⟨ResponseWriter.mk (("Content-Type", "application/json") ::
        rw.header.filter (fun e => e.1 != "Content-Type"))
      (rw.body ++ jsonString "update failed!"), ?_, ?_, ?_, ?_, ?_⟩
    · simp [Context.install, hu, sendJson, jsonMarshal]
    · simp
    · intro h; simp at h
    · intro _ h
      exact jsonString_success_ne_failed _ (string_append_left_cancel _ _ _ h).symm
    · intro h; simp at h

/-- C9, at the instances of `Test_InstallUpdateSuccess` and `Test_InstallUpdateFailed`:
with the new version `v2` the body is the success message between double quotes, and
with a failing updater it is `update failed!` between double quotes. -/
theorem install_response_witness :
    ((Context.install (Context.mk (Status.mk "v1" "v2") (FakeUpdater none))
        ResponseWriter.empty (World.start fixtureFS)).1.map ResponseWriter.body =
      some (quote ++ "Updated SUCCESS to version: v2" ++ quote)) ∧
    ((Context.install
        (Context.mk (Status.mk "v1" "v2") (FakeUpdater (some (.other "Update Failed"))))
        ResponseWriter.empty (World.start fixtureFS)).1.map ResponseWriter.body =
      some (quote ++ "update failed!" ++ quote)) :=
  match install_response (Context.mk (Status.mk "v1" "v2") (FakeUpdater none))
      ResponseWriter.empty (World.start fixtureFS),
    install_response
      (Context.mk (Status.mk "v1" "v2") (FakeUpdater (some (.other "Update Failed"))))
      ResponseWriter.empty (World.start fixtureFS) with
  | ⟨_, h1, _, _, _, h5⟩, ⟨_, g1, g2, _, _, _⟩ =>
    ⟨by rw [h1]; exact congrArg some ((h5 rfl (by decide)).trans (by decide)),
     by rw [g1]; exact congrArg some ((g2.2 (by decide)).trans (by decide))⟩

/-! ## The file loader -/

/-- C10: `BinLoader.read` returns a nil error only if reading the file at `filePath`
succeeded, and then the bytes returned are exactly the complete content of that file; if
the file read fails, it returns an empty byte slice together with the non-nil read error,
so a failed read is never reported as success. -/
theorem binLoader_read_contract (bl : BinLoader) (fs : FileSystem) :
    ((bl.read fs).2 = none →
      (readFile fs bl.filePath).2 = none ∧
      ∃ f, fs.lookup bl.filePath = some f ∧ (bl.read fs).1 = f.content) ∧
    (∀ e, (readFile fs bl.filePath).2 = some e → bl.read fs = ([], some e)) := by
  refine ⟨?_, ?_⟩
  · intro h
    unfold BinLoader.read at h ⊢
    unfold readFile at h ⊢
    cases hl : fs.lookup bl.filePath with
    | none => simp [hl] at h
    | some f =>
      cases hf : fs.readFault.lookup bl.filePath with
      | some n => simp [hl, hf] at h
      | none => simp [hl, hf]
  · intro e he
    rcases hr : readFile fs bl.filePath with ⟨b, _ | e2⟩
    · rw [hr] at he; simp at he
    · rw [hr] at he
      simp at he
      subst he
      simp [BinLoader.read, hr]

/-- C10, at the instances of the tests and of a missing file: `test.txt` is read whole,
and reading the missing `v2.exe` gives no bytes and the open error. -/
theorem binLoader_read_contract_witness :
    BinLoader.read { filePath := "test.txt" } testFS =
      (goBytes "something to read", none) ∧
    BinLoader.read { filePath := "v2.exe" } testFS =
      ([], some (.pathError "open" "v2.exe")) :=
  ⟨match (binLoader_read_contract { filePath := "test.txt" } testFS).1 (by decide) with
    | ⟨h, f, hf, hc⟩ => Prod.ext (hc.trans (by
        have : some f = some { content := goBytes "something to read", executable := false } :=
          hf.symm.trans (by decide)
        rw [Option.some.inj this])) (by decide),
   (binLoader_read_contract { filePath := "v2.exe" } testFS).2 _ (by decide)⟩

end SelfUpdate
